import Mathlib

/-!
# Verification of the watch-party synchronization server

Shallow embedding of the room playback synchronization engine:
the socket event handlers of `videoSyncHandler` (`video:play`, `video:pause`,
`video:seek`, `video:change`, `video:requestSync`), the room membership
handlers of `roomHandler` (`room:join`, `room:leave`, `disconnecting`),
the chat handler (`chat:message`), and the client-side reconciliation
effect of `VideoPlayer`.

Modelling conventions:
* Each handler is embedded as a pure function from the authenticated user,
  the database and the event payload to the new database together with the
  list of emitted messages, each tagged with its delivery target
  (`socket.emit` = sender only, `socket.to(room).emit` = room excluding
  sender, `io.to(room).emit` = whole room).
* The Prisma tables are association lists; the unique constraints of the
  schema (`SyncState.roomId`, `RoomParticipant (userId, roomId)`) are
  expressed as `Pairwise` predicates where a proof needs them.
* Handlers are executed atomically (one event to completion); each store
  read-back after a write therefore sees the record just written.
* JavaScript numbers (`Float` columns, client timestamps, player positions)
  are modelled as `ℚ`; no claim below depends on rounding.
* Server-assigned `updatedAt` timestamps and generated uuids carry no
  information used by any claim and are omitted; `RoomParticipant` deletion
  by primary key is modelled as removal of the record that `findFirst`
  returned, which is the same record because ids are unique.
* The schema declares `lastEventTimestamp Float? @default(0)`; every write
  performed by the handlers supplies a number, so the field is modelled
  as `ℚ`.
-/

namespace Dashboard

/-- The `{ userId, username }` object attached to an authenticated socket. -/
structure UserInfo where
  userId : String
  username : String
deriving DecidableEq

/-- A row of the `Video` table (the columns the sync engine reads). -/
structure Video where
  id : String
  roomId : String
  title : String
  url : String
deriving DecidableEq

/-- A row of the `SyncState` table (the columns the sync engine reads and
writes); `roomId` is unique in the schema. -/
structure SyncState where
  roomId : String
  currentVideoId : Option String
  isPlaying : Bool
  progress : ℚ
  lastEventTimestamp : ℚ
deriving DecidableEq

/-- A row of the `RoomParticipant` table; `(userId, roomId)` is unique in
the schema. -/
structure Participant where
  userId : String
  roomId : String
deriving DecidableEq

/-- The database: the `Room`, `Video`, `SyncState` and `RoomParticipant`
tables (rooms reduced to their ids). -/
structure DB where
  rooms : List String
  videos : List Video
  syncStates : List SyncState
  participants : List Participant
deriving DecidableEq

/-- A socket connection: its (optional) authenticated user and the set of
socket.io rooms it has joined (the default personal room is omitted, as the
`disconnecting` sweep skips it). -/
structure Conn where
  user : Option UserInfo
  rooms : List String
deriving DecidableEq

/-- The `sync:update` payload built by `emitSyncUpdate` and
`video:requestSync` (the `updatedAt` field is omitted, see the header). -/
structure SyncPayload where
  roomId : String
  currentVideoId : Option String
  videoUrl : Option String
  title : Option String
  isPlaying : Bool
  progress : ℚ
  lastEventTimestamp : ℚ
deriving DecidableEq

/-- Delivery target of an emitted message: `socket.emit` (sender only),
`socket.to(roomId).emit` (room excluding sender), `io.to(roomId).emit`
(whole room). -/
inductive Target where
  | toSender
  | toRoomExceptSender (roomId : String)
  | toRoom (roomId : String)
deriving DecidableEq

/-- The messages the embedded handlers emit. `syncUpdateDefault` is the
reduced object literal sent by `video:requestSync` when no `SyncState`
exists (it carries only `roomId`, `currentVideoId`, `isPlaying`,
`progress`). -/
inductive Msg where
  | error (message : String)
  | syncUpdate (payload : SyncPayload)
  | syncUpdateDefault (roomId : String) (currentVideoId : Option String)
      (isPlaying : Bool) (progress : ℚ)
  | userJoined (roomId userId username : String)
  | joined (roomId : String)
  | userLeft (roomId userId username : String) (reason : Option String)
  | leftRoom (roomId : String)
  | newMessage (roomId userId username message : String)
deriving DecidableEq

/-- An emitted message with its delivery target. -/
abbrev Emit := Target × Msg

/-- `prisma.syncState.findUnique({ where: { roomId } })`. -/
def findSyncState (db : DB) (rid : String) : Option SyncState :=
  db.syncStates.find? (fun s => s.roomId == rid)

/-- Update the record matched by the unique key `roomId` (the update half of
`prisma.syncState.upsert`). -/
def updateFirstSync : List SyncState → String → (SyncState → SyncState) → List SyncState
  | [], _, _ => []
  | s :: rest, rid, u =>
      if s.roomId == rid then u s :: rest else s :: updateFirstSync rest rid u

/-- `prisma.syncState.upsert({ where: { roomId }, create, update })`; returns
the new database and the resulting record. -/
def upsertSyncState (db : DB) (rid : String) (c : SyncState)
    (u : SyncState → SyncState) : DB × SyncState :=
  match db.syncStates.find? (fun s => s.roomId == rid) with
  | some s => ({ db with syncStates := updateFirstSync db.syncStates rid u }, u s)
  | none => ({ db with syncStates := db.syncStates ++ [c] }, c)

/-- `prisma.syncState.updateMany({ where: { roomId }, data })`: update every
matching record. -/
def updateManySync (l : List SyncState) (rid : String)
    (u : SyncState → SyncState) : List SyncState :=
  l.map (fun s => if s.roomId == rid then u s else s)

/-- The `count` returned by `updateMany`: how many records matched. -/
def countSync (l : List SyncState) (rid : String) : Nat :=
  (l.filter (fun s => s.roomId == rid)).length

/-- Build the `sync:update` payload from a `SyncState` record, resolving
`currentVideo` (the `include: { currentVideo: true }` join). -/
def syncPayloadOf (db : DB) (s : SyncState) : SyncPayload :=
  let v := s.currentVideoId.bind (fun vid => db.videos.find? (fun w => w.id == vid))
  { roomId := s.roomId
    currentVideoId := s.currentVideoId
    videoUrl := v.map Video.url
    title := v.map Video.title
    isPlaying := s.isPlaying
    progress := s.progress
    lastEventTimestamp := s.lastEventTimestamp }

/-- `emitSyncUpdate(roomId, initiatingSocketId?)`: re-read the stored state
and broadcast it, excluding the sender when an initiating socket id was
passed; silently does nothing when no record exists. -/
def emitSyncUpdate (db : DB) (rid : String) (excludeSender : Bool) : List Emit :=
  match findSyncState db rid with
  | some s =>
      if excludeSender then
        [(Target.toRoomExceptSender rid, Msg.syncUpdate (syncPayloadOf db s))]
      else
        [(Target.toRoom rid, Msg.syncUpdate (syncPayloadOf db s))]
  | none => []

/-- Payload of `video:play`. -/
structure VideoPlayPayload where
  roomId : String
  timestamp : ℚ
deriving DecidableEq

/-- Payload of `video:pause`. -/
structure VideoPausePayload where
  roomId : String
  timestamp : ℚ
deriving DecidableEq

/-- Payload of `video:seek`. -/
structure VideoSeekPayload where
  roomId : String
  time : ℚ
  timestamp : ℚ
deriving DecidableEq

/-- Payload of `video:change`. -/
structure VideoChangePayload where
  roomId : String
  videoId : String
  timestamp : ℚ
deriving DecidableEq

/-- The `create` object of the `video:play` upsert: `currentVideoId` is left
to its schema default `null`, `progress` to its default `0`. -/
def playCreate (p : VideoPlayPayload) : SyncState :=
  { roomId := p.roomId, currentVideoId := none, isPlaying := true,
    progress := 0, lastEventTimestamp := p.timestamp }

/-- The `update` object of the `video:play` upsert. -/
def playUpdate (p : VideoPlayPayload) (s : SyncState) : SyncState :=
  { s with isPlaying := true, lastEventTimestamp := p.timestamp }

/-- The `video:play` handler: auth check, then `upsert` that unconditionally
sets `isPlaying := true` and `lastEventTimestamp := timestamp` (the
timestamp comparison in the source is commented out), then broadcast to the
room excluding the sender if the record read back carries the timestamp
just applied. -/
def handleVideoPlay (user : Option UserInfo) (db : DB) (p : VideoPlayPayload) :
    DB × List Emit :=
  match user with
  | none => (db, [(Target.toSender, Msg.error "Authentication required.")])
  | some _ =>
      let r := upsertSyncState db p.roomId (playCreate p) (playUpdate p)
      let out :=
        if r.2.lastEventTimestamp = p.timestamp then emitSyncUpdate r.1 p.roomId true
        else []
      (r.1, out)

/-- The `video:pause` handler: auth check, then `updateMany` (which matches
zero records when no `SyncState` exists) unconditionally setting
`isPlaying := false` and `lastEventTimestamp := timestamp`; if any record
was updated, re-read and broadcast (excluding the sender) when the stored
timestamp still equals the one just applied. -/
def pauseUpdate (p : VideoPausePayload) (s : SyncState) : SyncState :=
  { s with isPlaying := false, lastEventTimestamp := p.timestamp }

def handleVideoPause (user : Option UserInfo) (db : DB) (p : VideoPausePayload) :
    DB × List Emit :=
  match user with
  | none => (db, [(Target.toSender, Msg.error "Authentication required.")])
  | some _ =>
      let l' := updateManySync db.syncStates p.roomId (pauseUpdate p)
      let db' := { db with syncStates := l' }
      let out :=
        if 0 < countSync db.syncStates p.roomId then
          match findSyncState db' p.roomId with
          | some cur =>
              if cur.lastEventTimestamp = p.timestamp then
                emitSyncUpdate db' p.roomId true
              else []
          | none => []
        else []
      (db', out)

/-- The `video:seek` handler: like pause, but sets `progress := time`
(leaving `isPlaying` as is) and `lastEventTimestamp := timestamp`. -/
def seekUpdate (p : VideoSeekPayload) (s : SyncState) : SyncState :=
  { s with progress := p.time, lastEventTimestamp := p.timestamp }

def handleVideoSeek (user : Option UserInfo) (db : DB) (p : VideoSeekPayload) :
    DB × List Emit :=
  match user with
  | none => (db, [(Target.toSender, Msg.error "Authentication required.")])
  | some _ =>
      let l' := updateManySync db.syncStates p.roomId (seekUpdate p)
      let db' := { db with syncStates := l' }
      let out :=
        if 0 < countSync db.syncStates p.roomId then
          match findSyncState db' p.roomId with
          | some cur =>
              if cur.lastEventTimestamp = p.timestamp then
                emitSyncUpdate db' p.roomId true
              else []
          | none => []
        else []
      (db', out)

/-- The `create` object of the `video:change` upsert. -/
def changeCreate (p : VideoChangePayload) : SyncState :=
  { roomId := p.roomId, currentVideoId := some p.videoId, isPlaying := false,
    progress := 0, lastEventTimestamp := p.timestamp }

/-- The `update` object of the `video:change` upsert. -/
def changeUpdate (p : VideoChangePayload) (s : SyncState) : SyncState :=
  { s with
    currentVideoId := some p.videoId
    isPlaying := false
    progress := 0
    lastEventTimestamp := p.timestamp }

/-- The `video:change` handler: auth check; `findFirst` the video by id and
room (error to the sender when absent); otherwise `upsert` setting
`currentVideoId := videoId`, `isPlaying := false`, `progress := 0`,
`lastEventTimestamp := timestamp`, then always broadcast to the whole room
including the sender. -/
def handleVideoChange (user : Option UserInfo) (db : DB) (p : VideoChangePayload) :
    DB × List Emit :=
  match user with
  | none => (db, [(Target.toSender, Msg.error "Authentication required.")])
  | some _ =>
      match db.videos.find? (fun w => w.id == p.videoId && w.roomId == p.roomId) with
      | none =>
          (db, [(Target.toSender,
            Msg.error ("Video " ++ p.videoId ++ " not found in room " ++ p.roomId))])
      | some _ =>
          let r := upsertSyncState db p.roomId (changeCreate p) (changeUpdate p)
          (r.1, emitSyncUpdate r.1 p.roomId false)

/-- The `video:requestSync` handler: auth check, then a pure read — the full
state to the requester when a record exists, otherwise the default object
`{ roomId, currentVideoId: null, isPlaying: false, progress: 0 }`. -/
def handleRequestSync (user : Option UserInfo) (db : DB) (rid : String) :
    DB × List Emit :=
  match user with
  | none => (db, [(Target.toSender, Msg.error "Authentication required.")])
  | some _ =>
      match findSyncState db rid with
      | some s => (db, [(Target.toSender, Msg.syncUpdate (syncPayloadOf db s))])
      | none => (db, [(Target.toSender, Msg.syncUpdateDefault rid none false 0)])

/-- The `room:join` handler: auth check; room existence check; participant
`upsert` keyed by `(userId, roomId)` (no change when already a member);
`socket.join`; `room:userJoined` to the others and `room:joined` to the
joiner. -/
def handleRoomJoin (conn : Conn) (db : DB) (rid : String) :
    Conn × DB × List Emit :=
  match conn.user with
  | none =>
      (conn, db, [(Target.toSender, Msg.error "Authentication required to join a room.")])
  | some u =>
      if db.rooms.contains rid then
        let ps' :=
          if db.participants.any (fun q => q.userId == u.userId && q.roomId == rid) then
            db.participants
          else db.participants ++ [{ userId := u.userId, roomId := rid }]
        let db' := { db with participants := ps' }
        let rs' := if conn.rooms.contains rid then conn.rooms else conn.rooms ++ [rid]
        let conn' := { conn with rooms := rs' }
        (conn', db',
          [(Target.toRoomExceptSender rid, Msg.userJoined rid u.userId u.username),
           (Target.toSender, Msg.joined rid)])
      else (conn, db, [(Target.toSender, Msg.error ("Room " ++ rid ++ " not found"))])

/-- The `room:leave` handler: auth check; `deleteMany` of the participant
records (a no-op on the table when not a member); `socket.leave`; then —
unconditionally — `room:userLeft` to the remaining members and `room:left`
to the leaver. -/
def handleRoomLeave (conn : Conn) (db : DB) (rid : String) :
    Conn × DB × List Emit :=
  match conn.user with
  | none =>
      (conn, db, [(Target.toSender, Msg.error "Authentication required to leave a room.")])
  | some u =>
      let ps' := db.participants.filter (fun q => !(q.userId == u.userId && q.roomId == rid))
      let db' := { db with participants := ps' }
      let conn' := { conn with rooms := conn.rooms.filter (fun r => !(r == rid)) }
      (conn', db',
        [(Target.toRoomExceptSender rid, Msg.userLeft rid u.userId u.username none),
         (Target.toSender, Msg.leftRoom rid)])

/-- Remove the record `findFirst { userId, roomId }` returned (deletion by
its unique id in the source). -/
def removeFirstPart : List Participant → String → String → List Participant
  | [], _, _ => []
  | q :: rest, uid, rid =>
      if q.userId == uid && q.roomId == rid then rest
      else q :: removeFirstPart rest uid rid

/-- `findFirst({ where: { userId, roomId } })` on the participant table. -/
def findPart (l : List Participant) (uid rid : String) : Option Participant :=
  l.find? (fun q => q.userId == uid && q.roomId == rid)

/-- The loop body of the `disconnecting` sweep: for each room of the socket,
delete the participant record if present and emit `room:userLeft` (reason
`disconnect`) to the whole room; silently skip rooms where the user is not
a participant. -/
def sweepRooms (u : UserInfo) : List String → List Participant →
    List Participant × List Emit
  | [], ps => (ps, [])
  | rid :: rest, ps =>
      match findPart ps u.userId rid with
      | some _ =>
          let r := sweepRooms u rest (removeFirstPart ps u.userId rid)
          (r.1, (Target.toRoom rid,
            Msg.userLeft rid u.userId u.username (some "disconnect")) :: r.2)
      | none => sweepRooms u rest ps

/-- The `disconnecting` handler: nothing to clean up for an unauthenticated
socket; otherwise sweep every socket.io room of the connection. -/
def handleDisconnecting (conn : Conn) (db : DB) : DB × List Emit :=
  match conn.user with
  | none => (db, [])
  | some u =>
      let r := sweepRooms u conn.rooms db.participants
      ({ db with participants := r.1 }, r.2)

/-- JavaScript `String.prototype.trim`: strip leading and trailing
whitespace. -/
def jsTrim (s : String) : String :=
  String.mk (((s.data.dropWhile Char.isWhitespace).reverse.dropWhile
    Char.isWhitespace).reverse)

/-- The `chat:message` handler: auth check; roomId must be a present,
non-whitespace string (else an error); a missing / non-string / whitespace
message is dropped silently (no emission at all); otherwise
`chat:newMessage` with the trimmed text to the whole room. `none` models a
missing field or one that fails the `typeof === 'string'` check; the `!x`
falsiness test on a present string is subsumed by the `trim` test, since
only the empty string is falsy. -/
def handleChatMessage (user : Option UserInfo) (roomId : Option String)
    (message : Option String) : List Emit :=
  match user with
  | none => [(Target.toSender, Msg.error "Authentication required to send messages.")]
  | some u =>
      match roomId with
      | none => [(Target.toSender, Msg.error "Invalid room ID.")]
      | some rid =>
          if jsTrim rid = "" then [(Target.toSender, Msg.error "Invalid room ID.")]
          else
            match message with
            | none => []
            | some m =>
                if jsTrim m = "" then []
                else [(Target.toRoom rid,
                  Msg.newMessage rid u.userId u.username (jsTrim m))]

/-- Client-side player state read and written by the `currentTime` effect of
`VideoPlayer`: the element's `currentTime` and the `isSeekingInternally`
guard ref (`lastServerUpdateTime` is wall-clock bookkeeping unused by the
decision and omitted). -/
structure PlayerState where
  localTime : ℚ
  isSeekingInternally : Bool
deriving DecidableEq

/-- The `needsUpdate` computation of the `currentTime` effect:
true when the difference exceeds the 1-second threshold, or when paused and
the positions differ at all. -/
def reconcileNeedsUpdate (localTime currentTime : ℚ) (isPlaying : Bool) : Bool :=
  if 1 < |localTime - currentTime| then true
  else if isPlaying = false ∧ localTime ≠ currentTime then true
  else false

/-- The `currentTime` effect of `VideoPlayer`: apply the server position when
`needsUpdate && !isSeekingInternally.current`, setting the guard flag before
the programmatic seek; otherwise leave the player untouched. -/
def applyServerTime (st : PlayerState) (currentTime : ℚ) (isPlaying : Bool) :
    PlayerState :=
  if reconcileNeedsUpdate st.localTime currentTime isPlaying ∧
      st.isSeekingInternally = false then
    { localTime := currentTime, isSeekingInternally := true }
  else st

/-- Uniqueness of `SyncState.roomId` (the schema's `@unique` constraint). -/
def SyncUnique (l : List SyncState) : Prop :=
  l.Pairwise (fun a b => a.roomId ≠ b.roomId)

/-- Uniqueness of `(userId, roomId)` on the participant table (the schema's
`@@unique` constraint). -/
def PartUnique (l : List Participant) : Prop :=
  l.Pairwise (fun a b => ¬(a.userId = b.userId ∧ a.roomId = b.roomId))

instance (l : List SyncState) : Decidable (SyncUnique l) := by
  unfold SyncUnique; infer_instance

instance (l : List Participant) : Decidable (PartUnique l) := by
  unfold PartUnique; infer_instance

/-! ## Store lemmas -/

theorem find?_append_singleton {α : Type} (l : List α) (p : α → Bool) (c : α)
    (h : l.find? p = none) (hc : p c = true) : (l ++ [c]).find? p = some c := by
  induction l with
  | nil => simp [List.find?, hc]
  | cons a t ih =>
      rw [List.find?_cons] at h
      cases hpa : p a with
      | true => rw [hpa] at h; exact absurd h (by simp)
      | false =>
          rw [hpa] at h
          simp only [List.cons_append, List.find?_cons, hpa]
          exact ih h

theorem find?_updateFirstSync (l : List SyncState) (rid : String)
    (u : SyncState → SyncState) (hu : ∀ s, (u s).roomId = s.roomId)
    (s : SyncState) (h : l.find? (fun t => t.roomId == rid) = some s) :
    (updateFirstSync l rid u).find? (fun t => t.roomId == rid) = some (u s) := by
  induction l with
  | nil => simp [List.find?] at h
  | cons a t ih =>
      rw [List.find?_cons] at h
      cases hpa : (a.roomId == rid) with
      | true =>
          rw [hpa] at h
          simp only [Option.some.injEq] at h
          subst h
          simp [updateFirstSync, hpa, List.find?_cons, hu a]
      | false =>
          rw [hpa] at h
          simp only [updateFirstSync, hpa]
          simp only [Bool.false_eq_true, if_false, List.find?_cons, hpa]
          exact ih h

theorem findSyncState_upsert (db : DB) (rid : String) (c : SyncState)
    (u : SyncState → SyncState) (hc : c.roomId = rid)
    (hu : ∀ s, (u s).roomId = s.roomId) :
    findSyncState (upsertSyncState db rid c u).1 rid =
      some (upsertSyncState db rid c u).2 := by
  unfold upsertSyncState findSyncState
  cases h : db.syncStates.find? (fun s => s.roomId == rid) with
  | some s => simpa using find?_updateFirstSync db.syncStates rid u hu s h
  | none =>
      simpa using find?_append_singleton db.syncStates _ c h (by simp [hc])

theorem find?_updateManySync (l : List SyncState) (rid : String)
    (u : SyncState → SyncState) (hu : ∀ s, (u s).roomId = s.roomId)
    (s : SyncState) (h : l.find? (fun t => t.roomId == rid) = some s) :
    (updateManySync l rid u).find? (fun t => t.roomId == rid) = some (u s) := by
  induction l with
  | nil => simp [List.find?] at h
  | cons a t ih =>
      rw [List.find?_cons] at h
      cases hpa : (a.roomId == rid) with
      | true =>
          rw [hpa] at h
          simp only [Option.some.injEq] at h
          subst h
          have hfa : (if (a.roomId == rid) = true then u a else a) = u a := by
            simp [hpa]
          simp only [updateManySync, List.map_cons, hfa]
          rw [List.find?_cons_of_pos]
          show ((u a).roomId == rid) = true
          rw [hu a]; exact hpa
      | false =>
          rw [hpa] at h
          have hfa : (if (a.roomId == rid) = true then u a else a) = a := by
            simp [hpa]
          simp only [updateManySync, List.map_cons, hfa]
          rw [List.find?_cons_of_neg]
          · exact ih h
          · show ¬(a.roomId == rid) = true
            simp [hpa]

theorem countSync_pos_of_find? (l : List SyncState) (rid : String)
    (s : SyncState) (h : l.find? (fun t => t.roomId == rid) = some s) :
    0 < countSync l rid := by
  induction l with
  | nil => simp [List.find?] at h
  | cons a t ih =>
      rw [List.find?_cons] at h
      cases hpa : (a.roomId == rid) with
      | true => simp [countSync, List.filter_cons, hpa]
      | false =>
          rw [hpa] at h
          simpa [countSync, List.filter_cons, hpa] using ih h

theorem updateManySync_of_find?_none (l : List SyncState) (rid : String)
    (u : SyncState → SyncState)
    (h : l.find? (fun t => t.roomId == rid) = none) :
    updateManySync l rid u = l := by
  induction l with
  | nil => rfl
  | cons a t ih =>
      rw [List.find?_cons] at h
      cases hpa : (a.roomId == rid) with
      | true => rw [hpa] at h; exact absurd h (by simp)
      | false =>
          rw [hpa] at h
          have hfa : (if (a.roomId == rid) = true then u a else a) = a := by
            simp [hpa]
          simp only [updateManySync, List.map_cons, hfa]
          show a :: updateManySync t rid u = a :: t
          rw [ih h]

theorem countSync_zero_of_find?_none (l : List SyncState) (rid : String)
    (h : l.find? (fun t => t.roomId == rid) = none) :
    countSync l rid = 0 := by
  induction l with
  | nil => rfl
  | cons a t ih =>
      rw [List.find?_cons] at h
      cases hpa : (a.roomId == rid) with
      | true => rw [hpa] at h; exact absurd h (by simp)
      | false =>
          rw [hpa] at h
          simpa [countSync, List.filter_cons, hpa] using ih h

/-! ## Uniqueness lemmas -/

theorem syncUnique_iff (l : List SyncState) :
    SyncUnique l ↔ (l.map SyncState.roomId).Pairwise (fun a b => a ≠ b) := by
  unfold SyncUnique
  rw [List.pairwise_map]

theorem map_roomId_updateFirstSync (l : List SyncState) (rid : String)
    (u : SyncState → SyncState) (hu : ∀ s, (u s).roomId = s.roomId) :
    (updateFirstSync l rid u).map SyncState.roomId = l.map SyncState.roomId := by
  induction l with
  | nil => rfl
  | cons a t ih =>
      by_cases hpa : (a.roomId == rid) = true
      · simp [updateFirstSync, hpa, hu a]
      · simp only [updateFirstSync, if_neg hpa, List.map_cons, ih]

theorem map_roomId_updateManySync (l : List SyncState) (rid : String)
    (u : SyncState → SyncState) (hu : ∀ s, (u s).roomId = s.roomId) :
    (updateManySync l rid u).map SyncState.roomId = l.map SyncState.roomId := by
  unfold updateManySync
  rw [List.map_map]
  apply List.map_congr_left
  intro a _
  by_cases hpa : a.roomId = rid
  · simp [hpa, hu a]
  · simp [hpa]

theorem syncUnique_updateFirstSync (l : List SyncState) (rid : String)
    (u : SyncState → SyncState) (hu : ∀ s, (u s).roomId = s.roomId)
    (h : SyncUnique l) : SyncUnique (updateFirstSync l rid u) := by
  rw [syncUnique_iff] at h ⊢
  rwa [map_roomId_updateFirstSync l rid u hu]

theorem syncUnique_updateManySync (l : List SyncState) (rid : String)
    (u : SyncState → SyncState) (hu : ∀ s, (u s).roomId = s.roomId)
    (h : SyncUnique l) : SyncUnique (updateManySync l rid u) := by
  rw [syncUnique_iff] at h ⊢
  rwa [map_roomId_updateManySync l rid u hu]

theorem syncUnique_append_singleton (l : List SyncState) (c : SyncState)
    (h : l.find? (fun t => t.roomId == c.roomId) = none) (hl : SyncUnique l) :
    SyncUnique (l ++ [c]) := by
  unfold SyncUnique at hl ⊢
  rw [List.pairwise_append]
  refine ⟨hl, List.pairwise_singleton _ _, ?_⟩
  intro a ha b hb
  simp only [List.mem_singleton] at hb
  subst hb
  have := (List.find?_eq_none.mp h) a ha
  simpa using this

/-- Every handler path rewrites `syncStates` through `updateFirstSync`,
`updateManySync` or an append guarded by a failed lookup, so the unique
`roomId` key of the `SyncState` table is preserved. -/
theorem syncUnique_upsert (db : DB) (rid : String) (c : SyncState)
    (u : SyncState → SyncState) (hc : c.roomId = rid)
    (hu : ∀ s, (u s).roomId = s.roomId) (h : SyncUnique db.syncStates) :
    SyncUnique (upsertSyncState db rid c u).1.syncStates := by
  unfold upsertSyncState
  cases hf : db.syncStates.find? (fun s => s.roomId == rid) with
  | some s => exact syncUnique_updateFirstSync db.syncStates rid u hu h
  | none =>
      apply syncUnique_append_singleton db.syncStates c _ h
      rw [hc]; exact hf

/-! ## Participant lemmas -/

theorem removeFirstPart_sublist (l : List Participant) (uid rid : String) :
    List.Sublist (removeFirstPart l uid rid) l := by
  induction l with
  | nil => exact List.Sublist.refl []
  | cons q t ih =>
      by_cases hq : (q.userId == uid && q.roomId == rid) = true
      · simp only [removeFirstPart, if_pos hq]
        exact List.sublist_cons_self q t
      · simp only [removeFirstPart, if_neg hq]
        exact ih.cons₂ q

theorem partUnique_removeFirstPart (l : List Participant) (uid rid : String)
    (h : PartUnique l) : PartUnique (removeFirstPart l uid rid) :=
  h.sublist (removeFirstPart_sublist l uid rid)

theorem findPart_removeFirstPart (l : List Participant) (uid rid : String)
    (h : PartUnique l) :
    findPart (removeFirstPart l uid rid) uid rid = none := by
  induction l with
  | nil => rfl
  | cons q t ih =>
      rcases List.pairwise_cons.mp h with ⟨hq, ht⟩
      by_cases hmatch : (q.userId == uid && q.roomId == rid) = true
      · simp only [removeFirstPart, if_pos hmatch]
        simp only [Bool.and_eq_true, beq_iff_eq] at hmatch
        apply List.find?_eq_none.mpr
        intro b hb
        have hnb := hq b hb
        simp only [Bool.and_eq_true, beq_iff_eq]
        intro hcontra
        exact hnb ⟨hmatch.1.trans hcontra.1.symm, hmatch.2.trans hcontra.2.symm⟩
      · simp only [removeFirstPart, if_neg hmatch]
        unfold findPart
        rw [List.find?_cons_of_neg]
        · exact ih ht
        · exact hmatch

theorem findPart_none_of_sublist (l l' : List Participant) (uid rid : String)
    (hsub : List.Sublist l' l) (h : findPart l uid rid = none) :
    findPart l' uid rid = none := by
  apply List.find?_eq_none.mpr
  intro x hx
  exact (List.find?_eq_none.mp h) x (hsub.mem hx)

theorem sweepRooms_sublist (u : UserInfo) (rooms : List String)
    (ps : List Participant) :
    List.Sublist (sweepRooms u rooms ps).1 ps := by
  induction rooms generalizing ps with
  | nil => exact List.Sublist.refl ps
  | cons rid rest ih =>
      unfold sweepRooms
      cases hf : findPart ps u.userId rid with
      | some q =>
          exact (ih (removeFirstPart ps u.userId rid)).trans
            (removeFirstPart_sublist ps u.userId rid)
      | none => exact ih ps

theorem partUnique_sweepRooms (u : UserInfo) (rooms : List String)
    (ps : List Participant) (h : PartUnique ps) :
    PartUnique (sweepRooms u rooms ps).1 :=
  h.sublist (sweepRooms_sublist u rooms ps)

theorem findPart_sweepRooms_none (u : UserInfo) (rooms : List String)
    (ps : List Participant) (h : PartUnique ps) :
    ∀ rid ∈ rooms, findPart (sweepRooms u rooms ps).1 u.userId rid = none := by
  induction rooms generalizing ps with
  | nil => intro rid hrid; simp at hrid
  | cons r rest ih =>
      intro rid hrid
      unfold sweepRooms
      cases hf : findPart ps u.userId r with
      | some q =>
          simp only []
          rcases List.mem_cons.mp hrid with hr | hr
          · subst hr
            apply findPart_none_of_sublist _ _ _ _
              (sweepRooms_sublist u rest (removeFirstPart ps u.userId rid))
            exact findPart_removeFirstPart ps u.userId rid h
          · exact ih (removeFirstPart ps u.userId r)
              (partUnique_removeFirstPart ps u.userId r h) rid hr
      | none =>
          rcases List.mem_cons.mp hrid with hr | hr
          · subst hr
            exact findPart_none_of_sublist _ _ _ _ (sweepRooms_sublist u rest ps) hf
          · exact ih ps h rid hr

theorem sweepRooms_of_all_none (u : UserInfo) (rooms : List String)
    (ps : List Participant)
    (h : ∀ rid ∈ rooms, findPart ps u.userId rid = none) :
    sweepRooms u rooms ps = (ps, []) := by
  induction rooms with
  | nil => rfl
  | cons r rest ih =>
      unfold sweepRooms
      rw [h r (List.mem_cons_self r rest)]
      exact ih (fun rid hrid => h rid (List.mem_cons_of_mem r hrid))

/-! ## Upsert helper lemmas -/

theorem upsertSyncState_of_found (db : DB) (rid : String) (c : SyncState)
    (u : SyncState → SyncState) (s : SyncState)
    (h : db.syncStates.find? (fun t => t.roomId == rid) = some s) :
    upsertSyncState db rid c u =
      ({ db with syncStates := updateFirstSync db.syncStates rid u }, u s) := by
  unfold upsertSyncState
  rw [h]

theorem upsertSyncState_snd_cases (db : DB) (rid : String) (c : SyncState)
    (u : SyncState → SyncState) :
    (upsertSyncState db rid c u).2 = c ∨
      ∃ s, (upsertSyncState db rid c u).2 = u s := by
  unfold upsertSyncState
  cases hf : db.syncStates.find? (fun s => s.roomId == rid) with
  | some s => exact Or.inr ⟨s, rfl⟩
  | none => exact Or.inl rfl

/-! ## Claim theorems -/

/-- C7: every event (room join, play, pause, seek, change-video,
request-sync, chat message) arriving on a connection with no authenticated
identity is answered with an `error` event to the sender only; the database,
the connection's room set and the room are untouched and nothing is
broadcast. -/
theorem unauthenticated_events_rejected :
    (∀ (rs : List String) (db : DB) (rid : String),
      handleRoomJoin ⟨none, rs⟩ db rid =
        (⟨none, rs⟩, db,
          [(Target.toSender, Msg.error "Authentication required to join a room.")])) ∧
    (∀ (db : DB) (p : VideoPlayPayload),
      handleVideoPlay none db p =
        (db, [(Target.toSender, Msg.error "Authentication required.")])) ∧
    (∀ (db : DB) (p : VideoPausePayload),
      handleVideoPause none db p =
        (db, [(Target.toSender, Msg.error "Authentication required.")])) ∧
    (∀ (db : DB) (p : VideoSeekPayload),
      handleVideoSeek none db p =
        (db, [(Target.toSender, Msg.error "Authentication required.")])) ∧
    (∀ (db : DB) (p : VideoChangePayload),
      handleVideoChange none db p =
        (db, [(Target.toSender, Msg.error "Authentication required.")])) ∧
    (∀ (db : DB) (rid : String),
      handleRequestSync none db rid =
        (db, [(Target.toSender, Msg.error "Authentication required.")])) ∧
    (∀ (roomId message : Option String),
      handleChatMessage none roomId message =
        [(Target.toSender, Msg.error "Authentication required to send messages.")]) :=
  ⟨fun _ _ _ => rfl, fun _ _ => rfl, fun _ _ => rfl, fun _ _ => rfl,
   fun _ _ => rfl, fun _ _ => rfl, fun _ _ => rfl⟩

/-- C6: `video:requestSync` never mutates the database (no `SyncState`
record is created by the read); with no stored record it answers the
requester only with the default state (`currentVideoId = null`,
`isPlaying = false`, `progress = 0`), and with a stored record it answers
the requester only with the full current state. -/
theorem requestSync_read_only (db : DB) (u : UserInfo) (rid : String) :
    (handleRequestSync (some u) db rid).1 = db ∧
    (findSyncState db rid = none →
      (handleRequestSync (some u) db rid).2 =
        [(Target.toSender, Msg.syncUpdateDefault rid none false 0)]) ∧
    (∀ s, findSyncState db rid = some s →
      (handleRequestSync (some u) db rid).2 =
        [(Target.toSender, Msg.syncUpdate (syncPayloadOf db s))]) := by
  refine ⟨?_, ?_, ?_⟩
  · simp only [handleRequestSync]
    cases hf : findSyncState db rid <;> rfl
  · intro h
    simp only [handleRequestSync, h]
  · intro s h
    simp only [handleRequestSync, h]

/-- Witness: a concrete room with no `SyncState` record gets the default
state and the database is unchanged. -/
theorem requestSync_read_only_witness :
    findSyncState ⟨["R"], [], [], []⟩ "R" = none ∧
    (handleRequestSync (some ⟨"u1", "alice"⟩) ⟨["R"], [], [], []⟩ "R").1 =
      ⟨["R"], [], [], []⟩ ∧
    (handleRequestSync (some ⟨"u1", "alice"⟩) ⟨["R"], [], [], []⟩ "R").2 =
      [(Target.toSender, Msg.syncUpdateDefault "R" none false 0)] :=
  ⟨by decide,
   (requestSync_read_only ⟨["R"], [], [], []⟩ ⟨"u1", "alice"⟩ "R").1,
   (requestSync_read_only ⟨["R"], [], [], []⟩ ⟨"u1", "alice"⟩ "R").2.1 (by decide)⟩

/-- C5: `video:change` naming a video that does not exist or does not belong
to the target room emits the not-found error to the sender only; the
database (in particular the room's `SyncState`) is untouched and nothing is
broadcast. -/
theorem changeVideo_video_not_found (db : DB) (u : UserInfo)
    (p : VideoChangePayload)
    (h : db.videos.find? (fun w => w.id == p.videoId && w.roomId == p.roomId) = none) :
    handleVideoChange (some u) db p =
      (db, [(Target.toSender,
        Msg.error ("Video " ++ p.videoId ++ " not found in room " ++ p.roomId))]) := by
  simp only [handleVideoChange, h]

/-- Witness: changing to a video that belongs to a different room fails
without mutation. -/
theorem changeVideo_video_not_found_witness :
    (⟨["R"], [⟨"V1", "S", "t", "u"⟩], [], []⟩ : DB).videos.find?
      (fun w => w.id == "V1" && w.roomId == "R") = none ∧
    handleVideoChange (some ⟨"u1", "alice"⟩) ⟨["R"], [⟨"V1", "S", "t", "u"⟩], [], []⟩
        ⟨"R", "V1", 100⟩ =
      (⟨["R"], [⟨"V1", "S", "t", "u"⟩], [], []⟩,
       [(Target.toSender, Msg.error ("Video " ++ "V1" ++ " not found in room " ++ "R"))]) :=
  ⟨by decide,
   changeVideo_video_not_found ⟨["R"], [⟨"V1", "S", "t", "u"⟩], [], []⟩
     ⟨"u1", "alice"⟩ ⟨"R", "V1", 100⟩ (by decide)⟩

/-- C2: `video:change` for a video that exists and belongs to the room
always rewrites the `SyncState` to `currentVideoId = videoId`,
`isPlaying = false`, `progress = 0`, `lastEventTimestamp = timestamp` —
with no comparison against the stored `lastEventTimestamp`, so also for a
smaller timestamp — and always broadcasts the resulting state to the whole
room including the sender; the record is created when the room had no
`SyncState` yet. -/
theorem changeVideo_authoritative (db : DB) (u : UserInfo)
    (p : VideoChangePayload) (v : Video)
    (h : db.videos.find? (fun w => w.id == p.videoId && w.roomId == p.roomId) = some v) :
    ∃ s' pl,
      findSyncState (handleVideoChange (some u) db p).1 p.roomId = some s' ∧
      s'.currentVideoId = some p.videoId ∧ s'.isPlaying = false ∧
      s'.progress = 0 ∧ s'.lastEventTimestamp = p.timestamp ∧
      (handleVideoChange (some u) db p).2 =
        [(Target.toRoom p.roomId, Msg.syncUpdate pl)] ∧
      pl.currentVideoId = some p.videoId ∧ pl.isPlaying = false ∧
      pl.progress = 0 ∧ pl.lastEventTimestamp = p.timestamp := by
  have hc : (changeCreate p).roomId = p.roomId := rfl
  have hup : ∀ s, (changeUpdate p s).roomId = s.roomId := fun _ => rfl
  have hfind := findSyncState_upsert db p.roomId (changeCreate p) (changeUpdate p) hc hup
  have hfields :
      ((upsertSyncState db p.roomId (changeCreate p) (changeUpdate p)).2).currentVideoId
        = some p.videoId ∧
      ((upsertSyncState db p.roomId (changeCreate p) (changeUpdate p)).2).isPlaying
        = false ∧
      ((upsertSyncState db p.roomId (changeCreate p) (changeUpdate p)).2).progress
        = 0 ∧
      ((upsertSyncState db p.roomId (changeCreate p) (changeUpdate p)).2).lastEventTimestamp
        = p.timestamp := by
    rcases upsertSyncState_snd_cases db p.roomId (changeCreate p) (changeUpdate p) with
      hcc | ⟨s, hss⟩
    · rw [hcc]; exact ⟨rfl, rfl, rfl, rfl⟩
    · rw [hss]; exact ⟨rfl, rfl, rfl, rfl⟩
  refine ⟨(upsertSyncState db p.roomId (changeCreate p) (changeUpdate p)).2,
    syncPayloadOf (upsertSyncState db p.roomId (changeCreate p) (changeUpdate p)).1
      (upsertSyncState db p.roomId (changeCreate p) (changeUpdate p)).2,
    ?_, hfields.1, hfields.2.1, hfields.2.2.1, hfields.2.2.2,
    ?_, hfields.1, hfields.2.1, hfields.2.2.1, hfields.2.2.2⟩
  · simp only [handleVideoChange, h]
    exact hfind
  · simp only [handleVideoChange, h]
    simp only [emitSyncUpdate, hfind]
    rw [if_neg]
    simp

/-- Witness: the spec scenario — a room with no `SyncState`, a change to a
video of that room with timestamp 100. -/
theorem changeVideo_authoritative_witness :
    (⟨["R"], [⟨"V1", "R", "t", "u"⟩], [], []⟩ : DB).videos.find?
      (fun w => w.id == "V1" && w.roomId == "R") = some ⟨"V1", "R", "t", "u"⟩ ∧
    (∃ s' pl,
      findSyncState (handleVideoChange (some ⟨"u1", "alice"⟩)
        ⟨["R"], [⟨"V1", "R", "t", "u"⟩], [], []⟩ ⟨"R", "V1", 100⟩).1 "R" = some s' ∧
      s'.currentVideoId = some "V1" ∧ s'.isPlaying = false ∧
      s'.progress = 0 ∧ s'.lastEventTimestamp = 100 ∧
      (handleVideoChange (some ⟨"u1", "alice"⟩)
        ⟨["R"], [⟨"V1", "R", "t", "u"⟩], [], []⟩ ⟨"R", "V1", 100⟩).2 =
        [(Target.toRoom "R", Msg.syncUpdate pl)] ∧
      pl.currentVideoId = some "V1" ∧ pl.isPlaying = false ∧
      pl.progress = 0 ∧ pl.lastEventTimestamp = 100) :=
  ⟨by decide,
   changeVideo_authoritative ⟨["R"], [⟨"V1", "R", "t", "u"⟩], [], []⟩
     ⟨"u1", "alice"⟩ ⟨"R", "V1", 100⟩ ⟨"V1", "R", "t", "u"⟩ (by decide)⟩

/-- C8: a `video:seek` applied to an existing `SyncState` sets
`progress := time` and `lastEventTimestamp := timestamp`, leaves
`isPlaying` and `currentVideoId` unchanged, and broadcasts the resulting
state to the room excluding the sender. -/
theorem seek_applies_to_existing_state (db : DB) (u : UserInfo)
    (p : VideoSeekPayload) (s : SyncState)
    (h : findSyncState db p.roomId = some s) :
    ∃ pl,
      findSyncState (handleVideoSeek (some u) db p).1 p.roomId =
        some (seekUpdate p s) ∧
      (seekUpdate p s).progress = p.time ∧
      (seekUpdate p s).lastEventTimestamp = p.timestamp ∧
      (seekUpdate p s).isPlaying = s.isPlaying ∧
      (seekUpdate p s).currentVideoId = s.currentVideoId ∧
      (handleVideoSeek (some u) db p).2 =
        [(Target.toRoomExceptSender p.roomId, Msg.syncUpdate pl)] ∧
      pl.progress = p.time ∧ pl.isPlaying = s.isPlaying ∧
      pl.lastEventTimestamp = p.timestamp := by
  have hup : ∀ t, (seekUpdate p t).roomId = t.roomId := fun _ => rfl
  unfold findSyncState at h
  have hcount : 0 < countSync db.syncStates p.roomId :=
    countSync_pos_of_find? db.syncStates p.roomId s h
  have hfind' : findSyncState
      { db with syncStates := updateManySync db.syncStates p.roomId (seekUpdate p) }
      p.roomId = some (seekUpdate p s) := by
    unfold findSyncState
    exact find?_updateManySync db.syncStates p.roomId (seekUpdate p) hup s h
  refine ⟨syncPayloadOf
      { db with syncStates := updateManySync db.syncStates p.roomId (seekUpdate p) }
      (seekUpdate p s),
    ?_, rfl, rfl, rfl, rfl, ?_, rfl, rfl, rfl⟩
  · simp only [handleVideoSeek]
    exact hfind'
  · simp only [handleVideoSeek, if_pos hcount, hfind']
    simp only [emitSyncUpdate, hfind']
    rw [if_pos (show (seekUpdate p s).lastEventTimestamp = p.timestamp from rfl),
      if_pos trivial]

/-- Witness: a seek to 42 s with timestamp 200 on a stored state that is
playing keeps `isPlaying` and moves `progress`. -/
theorem seek_applies_to_existing_state_witness :
    findSyncState ⟨["R"], [], [⟨"R", none, true, 7, 100⟩], []⟩ "R" =
      some ⟨"R", none, true, 7, 100⟩ ∧
    (∃ pl,
      findSyncState (handleVideoSeek (some ⟨"u1", "alice"⟩)
        ⟨["R"], [], [⟨"R", none, true, 7, 100⟩], []⟩ ⟨"R", 42, 200⟩).1 "R" =
        some (seekUpdate ⟨"R", 42, 200⟩ ⟨"R", none, true, 7, 100⟩) ∧
      (seekUpdate ⟨"R", 42, 200⟩ ⟨"R", none, true, 7, 100⟩).progress = 42 ∧
      (seekUpdate ⟨"R", 42, 200⟩ ⟨"R", none, true, 7, 100⟩).lastEventTimestamp = 200 ∧
      (seekUpdate ⟨"R", 42, 200⟩ ⟨"R", none, true, 7, 100⟩).isPlaying =
        (⟨"R", none, true, 7, 100⟩ : SyncState).isPlaying ∧
      (seekUpdate ⟨"R", 42, 200⟩ ⟨"R", none, true, 7, 100⟩).currentVideoId =
        (⟨"R", none, true, 7, 100⟩ : SyncState).currentVideoId ∧
      (handleVideoSeek (some ⟨"u1", "alice"⟩)
        ⟨["R"], [], [⟨"R", none, true, 7, 100⟩], []⟩ ⟨"R", 42, 200⟩).2 =
        [(Target.toRoomExceptSender "R", Msg.syncUpdate pl)] ∧
      pl.progress = 42 ∧
      pl.isPlaying = (⟨"R", none, true, 7, 100⟩ : SyncState).isPlaying ∧
      pl.lastEventTimestamp = 200) :=
  ⟨by decide,
   seek_applies_to_existing_state ⟨["R"], [], [⟨"R", none, true, 7, 100⟩], []⟩
     ⟨"u1", "alice"⟩ ⟨"R", 42, 200⟩ ⟨"R", none, true, 7, 100⟩ (by decide)⟩

/-- C1 counterexample: with stored `lastEventTimestamp = 100`, a
`video:play` with timestamp 90 mutates the state (to `isPlaying = true`,
`lastEventTimestamp = 90`) and broadcasts — the claimed silent drop does
not happen, because the handler's timestamp comparison is commented out in
the source ("Simplification: always update"). -/
theorem stale_play_mutates_counterexample :
    findSyncState (handleVideoPlay (some ⟨"u1", "alice"⟩)
      ⟨["R"], [], [⟨"R", none, false, 0, 100⟩], []⟩ ⟨"R", 90⟩).1 "R" =
      some ⟨"R", none, true, 0, 90⟩ ∧
    (handleVideoPlay (some ⟨"u1", "alice"⟩)
      ⟨["R"], [], [⟨"R", none, false, 0, 100⟩], []⟩ ⟨"R", 90⟩).2 =
      [(Target.toRoomExceptSender "R",
        Msg.syncUpdate ⟨"R", none, none, none, true, 0, 90⟩)] :=
  ⟨by decide, by decide⟩

/-- C1 (amended): a play, pause, or seek event whose timestamp is smaller
than the stored `lastEventTimestamp` is nevertheless applied — the stored
state is overwritten (including `lastEventTimestamp` regressing to the
stale timestamp) and the resulting state is broadcast to the room excluding
the sender; no error is sent to the sender. -/
theorem stale_events_still_applied (db : DB) (u : UserInfo) (rid : String)
    (ts tm : ℚ) (s : SyncState) (h : findSyncState db rid = some s)
    (hstale : ts < s.lastEventTimestamp) :
    (∃ pl, findSyncState (handleVideoPlay (some u) db ⟨rid, ts⟩).1 rid =
        some (playUpdate ⟨rid, ts⟩ s) ∧
      (playUpdate ⟨rid, ts⟩ s).lastEventTimestamp = ts ∧
      (playUpdate ⟨rid, ts⟩ s).isPlaying = true ∧
      (handleVideoPlay (some u) db ⟨rid, ts⟩).2 =
        [(Target.toRoomExceptSender rid, Msg.syncUpdate pl)]) ∧
    (∃ pl, findSyncState (handleVideoPause (some u) db ⟨rid, ts⟩).1 rid =
        some (pauseUpdate ⟨rid, ts⟩ s) ∧
      (pauseUpdate ⟨rid, ts⟩ s).lastEventTimestamp = ts ∧
      (pauseUpdate ⟨rid, ts⟩ s).isPlaying = false ∧
      (handleVideoPause (some u) db ⟨rid, ts⟩).2 =
        [(Target.toRoomExceptSender rid, Msg.syncUpdate pl)]) ∧
    (∃ pl, findSyncState (handleVideoSeek (some u) db ⟨rid, tm, ts⟩).1 rid =
        some (seekUpdate ⟨rid, tm, ts⟩ s) ∧
      (seekUpdate ⟨rid, tm, ts⟩ s).lastEventTimestamp = ts ∧
      (seekUpdate ⟨rid, tm, ts⟩ s).progress = tm ∧
      (handleVideoSeek (some u) db ⟨rid, tm, ts⟩).2 =
        [(Target.toRoomExceptSender rid, Msg.syncUpdate pl)]) := by
  unfold findSyncState at h
  refine ⟨?_, ?_, ?_⟩
  · -- play: upsert hits the update branch, read-back then broadcast
    have hups := upsertSyncState_of_found db rid (playCreate ⟨rid, ts⟩)
      (playUpdate ⟨rid, ts⟩) s h
    have hfind' : findSyncState
        { db with syncStates := updateFirstSync db.syncStates rid (playUpdate ⟨rid, ts⟩) }
        rid = some (playUpdate ⟨rid, ts⟩ s) := by
      unfold findSyncState
      exact find?_updateFirstSync db.syncStates rid (playUpdate ⟨rid, ts⟩)
        (fun _ => rfl) s h
    refine ⟨syncPayloadOf
        { db with syncStates := updateFirstSync db.syncStates rid (playUpdate ⟨rid, ts⟩) }
        (playUpdate ⟨rid, ts⟩ s), ?_, rfl, rfl, ?_⟩
    · simp only [handleVideoPlay, hups]
      exact hfind'
    · simp only [handleVideoPlay, hups]
      rw [if_pos (show (playUpdate ⟨rid, ts⟩ s).lastEventTimestamp = ts from rfl)]
      simp only [emitSyncUpdate, hfind']
      rw [if_pos trivial]
  · -- pause: updateMany matches, read-back then broadcast
    have hcount : 0 < countSync db.syncStates rid :=
      countSync_pos_of_find? db.syncStates rid s h
    have hfind' : findSyncState
        { db with syncStates := updateManySync db.syncStates rid (pauseUpdate ⟨rid, ts⟩) }
        rid = some (pauseUpdate ⟨rid, ts⟩ s) := by
      unfold findSyncState
      exact find?_updateManySync db.syncStates rid (pauseUpdate ⟨rid, ts⟩)
        (fun _ => rfl) s h
    refine ⟨syncPayloadOf
        { db with syncStates := updateManySync db.syncStates rid (pauseUpdate ⟨rid, ts⟩) }
        (pauseUpdate ⟨rid, ts⟩ s), ?_, rfl, rfl, ?_⟩
    · simp only [handleVideoPause]
      exact hfind'
    · simp only [handleVideoPause, if_pos hcount, hfind']
      simp only [emitSyncUpdate, hfind']
      rw [if_pos (show (pauseUpdate ⟨rid, ts⟩ s).lastEventTimestamp = ts from rfl),
        if_pos trivial]
  · -- seek: same shape as pause
    have hcount : 0 < countSync db.syncStates rid :=
      countSync_pos_of_find? db.syncStates rid s h
    have hfind' : findSyncState
        { db with syncStates := updateManySync db.syncStates rid (seekUpdate ⟨rid, tm, ts⟩) }
        rid = some (seekUpdate ⟨rid, tm, ts⟩ s) := by
      unfold findSyncState
      exact find?_updateManySync db.syncStates rid (seekUpdate ⟨rid, tm, ts⟩)
        (fun _ => rfl) s h
    refine ⟨syncPayloadOf
        { db with syncStates := updateManySync db.syncStates rid (seekUpdate ⟨rid, tm, ts⟩) }
        (seekUpdate ⟨rid, tm, ts⟩ s), ?_, rfl, rfl, ?_⟩
    · simp only [handleVideoSeek]
      exact hfind'
    · simp only [handleVideoSeek, if_pos hcount, hfind']
      simp only [emitSyncUpdate, hfind']
      rw [if_pos (show (seekUpdate ⟨rid, tm, ts⟩ s).lastEventTimestamp = ts from rfl),
        if_pos trivial]

/-- Witness: the amended stale-event behaviour at the spec's own scenario
(stored timestamp 100, incoming 90). -/
theorem stale_events_still_applied_witness :
    findSyncState ⟨["R"], [], [⟨"R", none, false, 0, 100⟩], []⟩ "R" =
      some ⟨"R", none, false, 0, 100⟩ ∧
    (90 : ℚ) < (⟨"R", none, false, 0, 100⟩ : SyncState).lastEventTimestamp ∧
    (∃ pl, findSyncState (handleVideoPlay (some ⟨"u1", "alice"⟩)
        ⟨["R"], [], [⟨"R", none, false, 0, 100⟩], []⟩ ⟨"R", 90⟩).1 "R" =
        some (playUpdate ⟨"R", 90⟩ ⟨"R", none, false, 0, 100⟩) ∧
      (playUpdate ⟨"R", 90⟩ ⟨"R", none, false, 0, 100⟩).lastEventTimestamp = 90 ∧
      (playUpdate ⟨"R", 90⟩ ⟨"R", none, false, 0, 100⟩).isPlaying = true ∧
      (handleVideoPlay (some ⟨"u1", "alice"⟩)
        ⟨["R"], [], [⟨"R", none, false, 0, 100⟩], []⟩ ⟨"R", 90⟩).2 =
        [(Target.toRoomExceptSender "R", Msg.syncUpdate pl)]) :=
  ⟨by decide, by decide,
   (stale_events_still_applied ⟨["R"], [], [⟨"R", none, false, 0, 100⟩], []⟩
     ⟨"u1", "alice"⟩ "R" 90 0 ⟨"R", none, false, 0, 100⟩ (by decide) (by decide)).1⟩

/-- C3 counterexample: a `video:pause` on a room with no `SyncState`
completes without any error to the sender, yet creates no record — the
`updateMany` call matches nothing and the handler falls through. -/
theorem pause_creates_no_state_counterexample :
    handleVideoPause (some ⟨"u1", "alice"⟩) ⟨["R"], [], [], []⟩ ⟨"R", 50⟩ =
      (⟨["R"], [], [], []⟩, []) := by
  decide

/-- C3 (amended): `video:play` and a valid `video:change` create the
`SyncState` lazily when absent (afterwards a record for the room exists);
`video:pause` and `video:seek` on a room with no record are silent no-ops
that create nothing; and each of the four control handlers preserves the
at-most-one-record-per-room invariant of the store. -/
theorem syncState_lazy_creation_and_uniqueness (db : DB) (u : UserInfo) :
    (∀ p : VideoPlayPayload,
      findSyncState (handleVideoPlay (some u) db p).1 p.roomId ≠ none) ∧
    (∀ (p : VideoChangePayload) (v : Video),
      db.videos.find? (fun w => w.id == p.videoId && w.roomId == p.roomId) = some v →
      findSyncState (handleVideoChange (some u) db p).1 p.roomId ≠ none) ∧
    (∀ p : VideoPausePayload, findSyncState db p.roomId = none →
      handleVideoPause (some u) db p = (db, [])) ∧
    (∀ p : VideoSeekPayload, findSyncState db p.roomId = none →
      handleVideoSeek (some u) db p = (db, [])) ∧
    (SyncUnique db.syncStates →
      (∀ p : VideoPlayPayload,
        SyncUnique (handleVideoPlay (some u) db p).1.syncStates) ∧
      (∀ p : VideoPausePayload,
        SyncUnique (handleVideoPause (some u) db p).1.syncStates) ∧
      (∀ p : VideoSeekPayload,
        SyncUnique (handleVideoSeek (some u) db p).1.syncStates) ∧
      (∀ p : VideoChangePayload,
        SyncUnique (handleVideoChange (some u) db p).1.syncStates)) := by
  refine ⟨?_, ?_, ?_, ?_, ?_⟩
  · intro p
    simp only [handleVideoPlay]
    rw [findSyncState_upsert db p.roomId (playCreate p) (playUpdate p) rfl
      (fun _ => rfl)]
    simp
  · intro p v hv
    simp only [handleVideoChange, hv]
    rw [findSyncState_upsert db p.roomId (changeCreate p) (changeUpdate p) rfl
      (fun _ => rfl)]
    simp
  · intro p h
    unfold findSyncState at h
    have hm := updateManySync_of_find?_none db.syncStates p.roomId (pauseUpdate p) h
    have hc0 := countSync_zero_of_find?_none db.syncStates p.roomId h
    simp only [handleVideoPause, hm, hc0]
    simp
  · intro p h
    unfold findSyncState at h
    have hm := updateManySync_of_find?_none db.syncStates p.roomId (seekUpdate p) h
    have hc0 := countSync_zero_of_find?_none db.syncStates p.roomId h
    simp only [handleVideoSeek, hm, hc0]
    simp
  · intro hU
    refine ⟨?_, ?_, ?_, ?_⟩
    · intro p
      simp only [handleVideoPlay]
      exact syncUnique_upsert db p.roomId (playCreate p) (playUpdate p) rfl
        (fun _ => rfl) hU
    · intro p
      simp only [handleVideoPause]
      exact syncUnique_updateManySync db.syncStates p.roomId (pauseUpdate p)
        (fun _ => rfl) hU
    · intro p
      simp only [handleVideoSeek]
      exact syncUnique_updateManySync db.syncStates p.roomId (seekUpdate p)
        (fun _ => rfl) hU
    · intro p
      cases hv : db.videos.find? (fun w => w.id == p.videoId && w.roomId == p.roomId) with
      | none => simp only [handleVideoChange, hv]; exact hU
      | some v =>
          simp only [handleVideoChange, hv]
          exact syncUnique_upsert db p.roomId (changeCreate p) (changeUpdate p) rfl
            (fun _ => rfl) hU

/-- Witness: lazy creation by play, the pause no-op, and uniqueness
preservation at a concrete database. -/
theorem syncState_lazy_creation_and_uniqueness_witness :
    findSyncState ⟨["R"], [], [], []⟩ "R" = none ∧
    handleVideoPause (some ⟨"u1", "alice"⟩) ⟨["R"], [], [], []⟩ ⟨"R", 50⟩ =
      (⟨["R"], [], [], []⟩, []) ∧
    findSyncState (handleVideoPlay (some ⟨"u1", "alice"⟩)
      ⟨["R"], [], [], []⟩ ⟨"R", 50⟩).1 "R" ≠ none ∧
    SyncUnique (⟨["R"], [], [], []⟩ : DB).syncStates ∧
    SyncUnique (handleVideoPlay (some ⟨"u1", "alice"⟩)
      ⟨["R"], [], [], []⟩ ⟨"R", 50⟩).1.syncStates :=
  ⟨by decide,
   (syncState_lazy_creation_and_uniqueness ⟨["R"], [], [], []⟩
     ⟨"u1", "alice"⟩).2.2.1 ⟨"R", 50⟩ (by decide),
   (syncState_lazy_creation_and_uniqueness ⟨["R"], [], [], []⟩
     ⟨"u1", "alice"⟩).1 ⟨"R", 50⟩,
   by decide,
   ((syncState_lazy_creation_and_uniqueness ⟨["R"], [], [], []⟩
     ⟨"u1", "alice"⟩).2.2.2.2 (by decide)).1 ⟨"R", 50⟩⟩

theorem filter_self_idem {α : Type} (p : α → Bool) (l : List α) :
    (l.filter p).filter p = l.filter p := by
  induction l with
  | nil => rfl
  | cons a t ih =>
      by_cases h : p a = true
      · simp [List.filter_cons, h, ih]
      · simp [List.filter_cons, h, ih]

/-- C4 counterexample: `room:leave` notifies the room unconditionally —
after the first leave removed the only membership record, a second leave of
the same room still emits `room:userLeft`, so two notifications are
produced for a single member-to-non-member transition (and leave on a
non-member is not silent). -/
theorem leave_twice_double_notification_counterexample :
    (handleRoomLeave ⟨some ⟨"u1", "alice"⟩, ["R"]⟩
      ⟨["R"], [], [], [⟨"u1", "R"⟩]⟩ "R").2.1.participants = [] ∧
    (handleRoomLeave ⟨some ⟨"u1", "alice"⟩, ["R"]⟩
      ⟨["R"], [], [], [⟨"u1", "R"⟩]⟩ "R").2.2 =
      [(Target.toRoomExceptSender "R", Msg.userLeft "R" "u1" "alice" none),
       (Target.toSender, Msg.leftRoom "R")] ∧
    (handleRoomLeave
      (handleRoomLeave ⟨some ⟨"u1", "alice"⟩, ["R"]⟩
        ⟨["R"], [], [], [⟨"u1", "R"⟩]⟩ "R").1
      (handleRoomLeave ⟨some ⟨"u1", "alice"⟩, ["R"]⟩
        ⟨["R"], [], [], [⟨"u1", "R"⟩]⟩ "R").2.1
      "R").2.2 =
      [(Target.toRoomExceptSender "R", Msg.userLeft "R" "u1" "alice" none),
       (Target.toSender, Msg.leftRoom "R")] :=
  ⟨by decide, by decide, by decide⟩

/-- C4 (amended): membership state (participant records and the
connection's socket.io room set) after two `room:leave` calls equals the
state after one, and the `disconnecting` sweep run twice removes nothing
further and emits nothing on the second run (given the table's
`(userId, roomId)` uniqueness); but `room:leave` emits its `userLeft`
notification on every authenticated invocation, member or not, so the
at-most-one-notification-per-transition property holds only for the sweep,
not for `room:leave`. -/
theorem membership_idempotence (u : UserInfo) (rs : List String) (db : DB)
    (rid : String) :
    ((handleRoomLeave (handleRoomLeave ⟨some u, rs⟩ db rid).1
        (handleRoomLeave ⟨some u, rs⟩ db rid).2.1 rid).1 =
      (handleRoomLeave ⟨some u, rs⟩ db rid).1 ∧
     (handleRoomLeave (handleRoomLeave ⟨some u, rs⟩ db rid).1
        (handleRoomLeave ⟨some u, rs⟩ db rid).2.1 rid).2.1 =
      (handleRoomLeave ⟨some u, rs⟩ db rid).2.1) ∧
    (handleRoomLeave ⟨some u, rs⟩ db rid).2.2 =
      [(Target.toRoomExceptSender rid, Msg.userLeft rid u.userId u.username none),
       (Target.toSender, Msg.leftRoom rid)] ∧
    (PartUnique db.participants →
      handleDisconnecting ⟨some u, rs⟩ (handleDisconnecting ⟨some u, rs⟩ db).1 =
        ((handleDisconnecting ⟨some u, rs⟩ db).1, [])) := by
  refine ⟨⟨?_, ?_⟩, rfl, ?_⟩
  · simp only [handleRoomLeave]
    rw [filter_self_idem]
  · simp only [handleRoomLeave]
    rw [filter_self_idem]
  · intro hU
    simp only [handleDisconnecting]
    rw [sweepRooms_of_all_none u rs (sweepRooms u rs db.participants).1
      (findPart_sweepRooms_none u rs db.participants hU)]

/-- Witness: double disconnect sweep at a concrete one-member database. -/
theorem membership_idempotence_witness :
    PartUnique (⟨["R"], [], [], [⟨"u1", "R"⟩]⟩ : DB).participants ∧
    handleDisconnecting ⟨some ⟨"u1", "alice"⟩, ["R"]⟩
      (handleDisconnecting ⟨some ⟨"u1", "alice"⟩, ["R"]⟩
        ⟨["R"], [], [], [⟨"u1", "R"⟩]⟩).1 =
      ((handleDisconnecting ⟨some ⟨"u1", "alice"⟩, ["R"]⟩
        ⟨["R"], [], [], [⟨"u1", "R"⟩]⟩).1, []) :=
  ⟨by decide,
   (membership_idempotence ⟨"u1", "alice"⟩ ["R"]
     ⟨["R"], [], [], [⟨"u1", "R"⟩]⟩ "R").2.2 (by decide)⟩

/-- C9 counterexample: while an internally-initiated seek is pending
(`isSeekingInternally = true`), an incoming server position whose
difference from the local position exceeds the 1-second threshold is NOT
applied — refuting the claimed "if and only if". -/
theorem reconcile_guard_counterexample :
    applyServerTime ⟨0, true⟩ 10 true = ⟨0, true⟩ ∧
    (1 : ℚ) < |(0 : ℚ) - 10| := by
  constructor
  · simp [applyServerTime]
  · norm_num

/-- C9 (amended): the reconciliation effect applies an incoming server
position if and only if (the absolute local/server difference exceeds 1
second, or playback is paused and the positions differ at all) AND no
internally-initiated seek is pending; otherwise the player is left
untouched. -/
theorem reconcile_characterization (st : PlayerState) (t : ℚ) (p : Bool) :
    applyServerTime st t p =
      if (1 < |st.localTime - t| ∨ (p = false ∧ st.localTime ≠ t)) ∧
          st.isSeekingInternally = false then
        { localTime := t, isSeekingInternally := true }
      else st := by
  have hiff : reconcileNeedsUpdate st.localTime t p = true ↔
      (1 < |st.localTime - t| ∨ (p = false ∧ st.localTime ≠ t)) := by
    unfold reconcileNeedsUpdate
    by_cases h1 : 1 < |st.localTime - t|
    · simp [h1]
    · by_cases h2 : p = false ∧ st.localTime ≠ t
      · simp [h1, h2]
      · simp [h1, h2]
  unfold applyServerTime
  by_cases hb : reconcileNeedsUpdate st.localTime t p = true
  · by_cases hs : st.isSeekingInternally = false
    · rw [if_pos ⟨hb, hs⟩, if_pos ⟨hiff.mp hb, hs⟩]
    · rw [if_neg (fun hc => hs hc.2), if_neg (fun hc => hs hc.2)]
  · by_cases hs : st.isSeekingInternally = false
    · rw [if_neg (fun hc => hb hc.1), if_neg (fun hc => hb (hiff.mpr hc.1))]
    · rw [if_neg (fun hc => hs hc.2), if_neg (fun hc => hs hc.2)]

/-- C10 counterexample: an authenticated `chat:message` whose message field
is missing is not always dropped silently — with an invalid room id the
handler answers with an "Invalid room ID." error to the sender (the room-id
check runs before the message check). -/
theorem chat_bad_roomid_counterexample :
    handleChatMessage (some ⟨"u1", "alice"⟩) none none =
      [(Target.toSender, Msg.error "Invalid room ID.")] := by
  decide

/-- C10 (amended): for an authenticated sender and a valid (non-whitespace
string) room id, a missing / non-string / whitespace-only message is
dropped silently — no broadcast and no error — while a non-empty message is
broadcast as `chat:newMessage` to the whole room including the sender with
the text trimmed of surrounding whitespace. -/
theorem chat_message_validation (u : UserInfo) (rid : String)
    (hrid : jsTrim rid ≠ "") :
    handleChatMessage (some u) (some rid) none = [] ∧
    (∀ m, jsTrim m = "" → handleChatMessage (some u) (some rid) (some m) = []) ∧
    (∀ m, jsTrim m ≠ "" → handleChatMessage (some u) (some rid) (some m) =
      [(Target.toRoom rid, Msg.newMessage rid u.userId u.username (jsTrim m))]) := by
  refine ⟨?_, ?_, ?_⟩
  · simp only [handleChatMessage, if_neg hrid]
  · intro m hm
    simp only [handleChatMessage, if_neg hrid, if_pos hm]
  · intro m hm
    simp only [handleChatMessage, if_neg hrid, if_neg hm]

/-- Witness: a silent drop of a whitespace-only message and a trimmed
broadcast of a real one, in room "R". -/
theorem chat_message_validation_witness :
    jsTrim "R" ≠ "" ∧
    handleChatMessage (some ⟨"u1", "alice"⟩) (some "R") none = [] ∧
    jsTrim "   " = "" ∧
    handleChatMessage (some ⟨"u1", "alice"⟩) (some "R") (some "   ") = [] ∧
    jsTrim "  hi  " ≠ "" ∧
    handleChatMessage (some ⟨"u1", "alice"⟩) (some "R") (some "  hi  ") =
      [(Target.toRoom "R", Msg.newMessage "R" "u1" "alice" (jsTrim "  hi  "))] :=
  ⟨by decide,
   (chat_message_validation ⟨"u1", "alice"⟩ "R" (by decide)).1,
   by decide,
   (chat_message_validation ⟨"u1", "alice"⟩ "R" (by decide)).2.1 "   " (by decide),
   by decide,
   (chat_message_validation ⟨"u1", "alice"⟩ "R" (by decide)).2.2 "  hi  " (by decide)⟩

end Dashboard
